import Mathlib

/-!
Shallow embedding of `gonetstat.go` (package GOnetstat).

Conventions of the embedding:
* Go runtime effects are reified in `GoOutcome`: `ok v` is a normal return,
  `exit n` models `os.Exit(n)` (the process terminates), and `panicked`
  models a Go runtime panic (index/slice out of range).
* The filesystem is a parameter `fs : String → Option String` mapping a path
  to the bytes `ioutil.ReadFile` would return (`none` = read error).
* Strings are Lean `String`s; all inputs of interest are ASCII, where Go's
  byte indexing coincides with character indexing.
* `strings.Split` with a one-character separator is `goSplit`;
  `strings.TrimSpace` is `trimSpace` (ASCII whitespace, which is all that
  occurs in the kernel tables); `strconv.ParseInt(h, 16, 32)` is
  `goParseIntHex32`.
-/

namespace GOnetstat

/-- Outcome of running a piece of Go code: a value, a process exit, or a panic. -/
inductive GoOutcome (α : Type) where
  | ok : α → GoOutcome α
  | exit : Nat → GoOutcome α
  | panicked : GoOutcome α
deriving DecidableEq

/-- Sequencing of Go outcomes: an exit or panic aborts everything after it. -/
def gbind {α β : Type} : GoOutcome α → (α → GoOutcome β) → GoOutcome β
  | .ok a, f => f a
  | .exit n, _ => .exit n
  | .panicked, _ => .panicked

/-- Go `xs[i]` on a slice: the element, or an index-out-of-range panic. -/
def goIndex {α : Type} (xs : List α) (i : Nat) : GoOutcome α :=
  match xs.get? i with
  | some v => .ok v
  | none => .panicked

/-- Go `s[a:b]` on a string: the substring, or a slice-bounds panic
when `a > b` or `b > len(s)`. -/
def goSlice (s : String) (a b : Nat) : GoOutcome String :=
  if a ≤ b ∧ b ≤ s.data.length then .ok (String.mk ((s.data.drop a).take (b - a)))
  else .panicked

/-- Go `strings.Split` with a single-character separator, on character lists. -/
def splitOnChar (sep : Char) : List Char → List (List Char)
  | [] => [[]]
  | c :: cs =>
    if c = sep then [] :: splitOnChar sep cs
    else
      match splitOnChar sep cs with
      | [] => [[c]]
      | r :: rs => (c :: r) :: rs

/-- Go `strings.Split(s, sep)` for a one-character `sep`. -/
def goSplit (sep : Char) (s : String) : List String :=
  (splitOnChar sep s.data).map (fun l => String.mk l)

/-- ASCII whitespace, as trimmed by Go `strings.TrimSpace` on ASCII input. -/
def isSpaceChar (c : Char) : Bool :=
  c == ' ' || c == '\t' || c == '\n' || c == '\x0b' || c == '\x0c' || c == '\r'

/-- Go `strings.TrimSpace` (ASCII fragment). -/
def trimSpace (s : String) : String :=
  String.mk (((s.data.dropWhile isSpaceChar).reverse.dropWhile isSpaceChar).reverse)

/-- `removeEmpty` from the source: drop empty fields from a split line. -/
def removeEmpty (array : List String) : List String :=
  array.filter (fun i => i != "")

def PROC_TCP : String := "/proc/net/tcp"
def PROC_UDP : String := "/proc/net/udp"
def PROC_TCP6 : String := "/proc/net/tcp6"
def PROC_UDP6 : String := "/proc/net/udp6"

/-- The `STATE` table from the source: two-hex-digit code to state name. -/
def STATE : List (String × String) :=
  [("01", "ESTABLISHED"), ("02", "SYN_SENT"), ("03", "SYN_RECV"),
   ("04", "FIN_WAIT1"), ("05", "FIN_WAIT2"), ("06", "TIME_WAIT"),
   ("07", "CLOSE"), ("08", "CLOSE_WAIT"), ("09", "LAST_ACK"),
   ("0A", "LISTEN"), ("0B", "CLOSING")]

/-- Go map read `STATE[code]`: the entry, or the zero value `""` when absent. -/
def stateTableGet (code : String) : String :=
  ((STATE.lookup code).getD "")

/-- Value of one hexadecimal digit character, if it is one, by byte value
as in Go `strconv` (48–57 are `0`–`9`, 97–102 are `a`–`f`, 65–70 are `A`–`F`). -/
def hexDigitVal (c : Char) : Option Nat :=
  if 48 ≤ c.toNat ∧ c.toNat ≤ 57 then some (c.toNat - 48)
  else if 97 ≤ c.toNat ∧ c.toNat ≤ 102 then some (c.toNat - 97 + 10)
  else if 65 ≤ c.toNat ∧ c.toNat ≤ 70 then some (c.toNat - 65 + 10)
  else none

def parseHexNatAux : List Char → Nat → Option Nat
  | [], acc => some acc
  | c :: cs, acc =>
    match hexDigitVal c with
    | some d => parseHexNatAux cs (16 * acc + d)
    | none => none

/-- Parse a nonempty string of hex digits as a natural number. -/
def parseHexNat (cs : List Char) : Option Nat :=
  match cs with
  | [] => none
  | _ :: _ => parseHexNatAux cs 0

/-- Body of `goParseIntHex32` on the character list of the input. -/
def goParseIntHex32Aux : List Char → Option Int
  | [] => none
  | c :: rest =>
    if c = '+' then
      (parseHexNat rest).bind (fun n => if n ≤ 2 ^ 31 - 1 then some ((n : Int)) else none)
    else if c = '-' then
      (parseHexNat rest).bind (fun n => if n ≤ 2 ^ 31 then some (-(n : Int)) else none)
    else
      (parseHexNat (c :: rest)).bind (fun n => if n ≤ 2 ^ 31 - 1 then some ((n : Int)) else none)

/-- Go `strconv.ParseInt(s, 16, 32)`: optional sign, hex digits,
result within the int32 range; `none` on any parse or range error. -/
def goParseIntHex32 (s : String) : Option Int :=
  goParseIntHex32Aux s.data

/-- `hexToDec` from the source: parse hex, `os.Exit(1)` on any error. -/
def hexToDec (h : String) : GoOutcome Int :=
  match goParseIntHex32 h with
  | some d => .ok d
  | none => .exit 1

/-- `convertIP` from the source, slice by slice in Go evaluation order.
The IPv6 branch (`len(ip) > 8`) builds the reversed byte-pair array
`i[0]=ip[30:32], ..., i[15]=ip[0:2]` and prints
`i[14]i[15]:i[13]i[12]:i[10]i[11]:i[8]i[9]:i[6]i[7]:i[4]i[5]:i[2]i[3]:i[0]i[1]`;
the IPv4 branch reverses the four bytes and prints them in decimal. -/
def convertIP (ip : String) : GoOutcome String :=
  if ip.data.length > 8 then
    gbind (goSlice ip 30 32) fun i0 =>
    gbind (goSlice ip 28 30) fun i1 =>
    gbind (goSlice ip 26 28) fun i2 =>
    gbind (goSlice ip 24 26) fun i3 =>
    gbind (goSlice ip 22 24) fun i4 =>
    gbind (goSlice ip 20 22) fun i5 =>
    gbind (goSlice ip 18 20) fun i6 =>
    gbind (goSlice ip 16 18) fun i7 =>
    gbind (goSlice ip 14 16) fun i8 =>
    gbind (goSlice ip 12 14) fun i9 =>
    gbind (goSlice ip 10 12) fun i10 =>
    gbind (goSlice ip 8 10) fun i11 =>
    gbind (goSlice ip 6 8) fun i12 =>
    gbind (goSlice ip 4 6) fun i13 =>
    gbind (goSlice ip 2 4) fun i14 =>
    gbind (goSlice ip 0 2) fun i15 =>
    GoOutcome.ok (i14 ++ i15 ++ ":" ++ i13 ++ i12 ++ ":" ++ i10 ++ i11 ++ ":" ++
      i8 ++ i9 ++ ":" ++ i6 ++ i7 ++ ":" ++ i4 ++ i5 ++ ":" ++ i2 ++ i3 ++ ":" ++
      i0 ++ i1)
  else
    gbind (goSlice ip 6 8) fun a0 =>
    gbind (hexToDec a0) fun v0 =>
    gbind (goSlice ip 4 6) fun a1 =>
    gbind (hexToDec a1) fun v1 =>
    gbind (goSlice ip 2 4) fun a2 =>
    gbind (hexToDec a2) fun v2 =>
    gbind (goSlice ip 0 2) fun a3 =>
    gbind (hexToDec a3) fun v3 =>
    GoOutcome.ok (toString v0 ++ "." ++ toString v1 ++ "." ++ toString v2 ++ "." ++
      toString v3)

/-- Does `needle` occur at the head of the list? -/
def leadsWith : List Char → List Char → Bool
  | [], _ => true
  | _ :: _, [] => false
  | a :: as, b :: bs => a == b && leadsWith as bs

/-- Does `needle` occur anywhere in `hay` as a contiguous run? -/
def hasSub (needle : List Char) : List Char → Bool
  | [] => leadsWith needle []
  | c :: cs => leadsWith needle (c :: cs) || hasSub needle cs

/-- The test `len(regexp.MustCompile(inode).FindString(path)) != 0` from
`findPid`, for a metacharacter-free pattern (inode numbers are decimal
digit strings): true exactly when `inode` is nonempty and occurs in `path`. -/
def reMatches (inode path : String) : Bool :=
  inode != "" && hasSub inode.data path.data

/-- The loop of `findPid` over the globbed descriptor links.  Each entry is
`(item, readlinkResult)`: the link path and `os.Readlink`'s answer (`none` =
error, which the source skips with `continue`).  A matching target updates
`pid` to `strings.Split(item, "/")[2]` and the loop keeps going. -/
def findPidLoop (inode : String) : List (String × Option String) → String → GoOutcome String
  | [], pid => .ok pid
  | e :: rest, pid =>
    match e.2 with
    | none => findPidLoop inode rest pid
    | some path =>
      if reMatches inode path then
        gbind (goIndex (goSplit '/' e.1) 2) (fun s => findPidLoop inode rest s)
      else findPidLoop inode rest pid

/-- `findPid` from the source: scan all `/proc/[0-9]*/fd/[0-9]*` links
(given here as the list `links`), starting from the placeholder `"-"`. -/
def findPid (inode : String) (links : List (String × Option String)) : GoOutcome String :=
  findPidLoop inode links "-"

/-- The `Process` record from the source, with Go zero values as defaults. -/
structure Process where
  User : String := ""
  Name : String := ""
  Pid : String := ""
  Exe : String := ""
  State : String := ""
  IP : String := ""
  Port : Int := 0
  ForeignIP : String := ""
  ForeignPort : Int := 0
deriving DecidableEq

/-- The protocol-selector dispatch at the top of `getData`:
the `/proc` path for a supported selector, `none` otherwise. -/
def protoPath (t : String) : Option String :=
  if t = "tcp" then some PROC_TCP
  else if t = "udp" then some PROC_UDP
  else if t = "tcp6" then some PROC_TCP6
  else if t = "udp6" then some PROC_UDP6
  else none

/-- `getData` from the source: unsupported selector or failed read is
`fmt.Print...; os.Exit(1)`; otherwise split the bytes on newlines and
return `lines[1 : len(lines)-1]` (slice-bounds panic when `len(lines) < 2`). -/
def getData (fs : String → Option String) (t : String) : GoOutcome (List String) :=
  match protoPath t with
  | none => .exit 1
  | some procT =>
    match fs procT with
    | none => .exit 1
    | some data =>
      let lines := goSplit '\n' data
      if lines.length < 2 then .panicked
      else .ok ((lines.drop 1).take (lines.length - 2))

/-- `removeEmpty(strings.Split(strings.TrimSpace(line), " "))` from `netstat`. -/
def lineTokens (line : String) : List String :=
  removeEmpty (goSplit ' ' (trimSpace line))

/-- The body of `netstat`'s per-line loop, in Go evaluation order:
`lineArray[1]` split on `:` into local address and port, `lineArray[2]`
likewise for the foreign pair, `lineArray[3]` stored verbatim as the state;
the identity fields keep their zero values (the correlation code is
commented out in the source). -/
def parseLine (line : String) : GoOutcome Process :=
  let lineArray := lineTokens line
  gbind (goIndex lineArray 1) fun f1 =>
  let ipPort := goSplit ':' f1
  gbind (goIndex ipPort 0) fun a0 =>
  gbind (convertIP a0) fun ip =>
  gbind (goIndex ipPort 1) fun a1 =>
  gbind (hexToDec a1) fun port =>
  gbind (goIndex lineArray 2) fun f2 =>
  let fipPort := goSplit ':' f2
  gbind (goIndex fipPort 0) fun b0 =>
  gbind (convertIP b0) fun fip =>
  gbind (goIndex fipPort 1) fun b1 =>
  gbind (hexToDec b1) fun fport =>
  gbind (goIndex lineArray 3) fun state =>
  GoOutcome.ok { State := state, IP := ip, Port := port,
                 ForeignIP := fip, ForeignPort := fport }

/-- The loop of `netstat` over the data lines, accumulating records;
the first exit or panic aborts the whole call, as in Go. -/
def parseLines : List String → GoOutcome (List Process)
  | [] => .ok []
  | l :: ls =>
    gbind (parseLine l) fun p =>
    gbind (parseLines ls) fun ps =>
    GoOutcome.ok (p :: ps)

/-- `netstat` from the source: read the table, parse every line. -/
def netstat (fs : String → Option String) (t : String) : GoOutcome (List Process) :=
  gbind (getData fs t) parseLines

/-- Public entry point `Tcp`. -/
def Tcp (fs : String → Option String) : GoOutcome (List Process) := netstat fs "tcp"

/-- Public entry point `Udp`. -/
def Udp (fs : String → Option String) : GoOutcome (List Process) := netstat fs "udp"

/-- Public entry point `Tcp6`. -/
def Tcp6 (fs : String → Option String) : GoOutcome (List Process) := netstat fs "tcp6"

/-- Public entry point `Udp6`. -/
def Udp6 (fs : String → Option String) : GoOutcome (List Process) := netstat fs "udp6"

/-- Does a descriptor-link entry match the inode, as tested inside `findPid`? -/
def entryMatch (inode : String) (e : String × Option String) : Bool :=
  match e.2 with
  | some path => reMatches inode path
  | none => false

/-- Example `/proc` contents: a tcp table with one LISTEN (`0A`) data line. -/
def exFsListen : String → Option String :=
  fun p => if p = PROC_TCP then some "header\n 0: 0100007F:0050 00000000:0000 0A\n" else none

/-- The one data line of `exFsListen`. -/
def exLine : String := " 0: 0100007F:0050 00000000:0000 0A"

/-- The record the source builds for `exLine`. -/
def exProcListen : Process :=
  { State := "0A", IP := "127.0.0.1", Port := 80, ForeignIP := "0.0.0.0", ForeignPort := 0 }

/-- Example tcp table whose first data line has only two tokens,
followed by a well-formed data line. -/
def exFsShort : String → Option String :=
  fun p => if p = PROC_TCP then
    some "header\nA B\n 0: 0100007F:0035 00000000:0000 0A\n" else none

/-- The record the source would build for the well-formed line of `exFsShort`. -/
def exProcShort : Process :=
  { State := "0A", IP := "127.0.0.1", Port := 53, ForeignIP := "0.0.0.0", ForeignPort := 0 }

/-- Two descriptor links of different processes whose targets both contain
inode 777. -/
def exLinks : List (String × Option String) :=
  [("/proc/11/fd/3", some "socket:[777]"), ("/proc/22/fd/4", some "socket:[777]")]

/-- A filesystem where every read fails. -/
def exFsNone : String → Option String := fun _ => none

/-- A tcp table holding exactly one header line and its terminator. -/
def exFsHeaderOnly : String → Option String :=
  fun p => if p = PROC_TCP then some "hdr\n" else none

/-- A tcp table read as the empty string (no newline at all). -/
def exFsEmptyFile : String → Option String :=
  fun p => if p = PROC_TCP then some "" else none

/-- A tcp table whose content has a newline but no trailing terminator. -/
def exFsTwoLines : String → Option String :=
  fun p => if p = PROC_TCP then some "hdr\nline" else none

/-! ## General lemmas about the embedding -/

theorem gbind_ok {α β : Type} (a : α) (f : α → GoOutcome β) :
    gbind (.ok a) f = f a := rfl

theorem gbind_assoc {α β γ : Type} (x : GoOutcome α) (f : α → GoOutcome β)
    (g : β → GoOutcome γ) :
    gbind (gbind x f) g = gbind x (fun a => gbind (f a) g) := by
  cases x <;> rfl

theorem gbind_ok_iff {α β : Type} (x : GoOutcome α) (f : α → GoOutcome β)
    (b : β) : gbind x f = .ok b ↔ ∃ a, x = .ok a ∧ f a = .ok b := by
  cases x <;> simp [gbind]

theorem goIndex_ok_lt {α : Type} (xs : List α) (i : Nat) (v : α)
    (h : goIndex xs i = .ok v) : i < xs.length := by
  unfold goIndex at h
  cases hg : xs.get? i with
  | none => rw [hg] at h; cases h
  | some w => exact (List.get?_eq_some.mp hg).1

theorem splitOnChar_ne_nil (sep : Char) (l : List Char) : splitOnChar sep l ≠ [] := by
  cases l with
  | nil => simp [splitOnChar]
  | cons c cs =>
    simp only [splitOnChar]
    by_cases hc : c = sep
    · simp [hc]
    · rw [if_neg hc]
      cases hr : splitOnChar sep cs <;> simp

theorem splitOnChar_of_not_mem (sep : Char) (l : List Char) (h : sep ∉ l) :
    splitOnChar sep l = [l] := by
  induction l with
  | nil => rfl
  | cons c cs ih =>
    simp only [List.mem_cons, not_or] at h
    have hne : ¬ (c = sep) := fun hh => h.1 hh.symm
    simp only [splitOnChar, if_neg hne, ih h.2]

theorem splitOnChar_append_sep (sep : Char) (l : List Char) (h : sep ∉ l) :
    splitOnChar sep (l ++ [sep]) = [l, []] := by
  induction l with
  | nil => simp [splitOnChar]
  | cons c cs ih =>
    simp only [List.mem_cons, not_or] at h
    have hne : ¬ (c = sep) := fun hh => h.1 hh.symm
    simp only [List.cons_append, splitOnChar, if_neg hne, List.append_eq, ih h.2]

theorem splitOnChar_two_le_of_mem (sep : Char) (l : List Char) (h : sep ∈ l) :
    2 ≤ (splitOnChar sep l).length := by
  induction l with
  | nil => cases h
  | cons c cs ih =>
    simp only [splitOnChar]
    by_cases hc : c = sep
    · rw [if_pos hc]
      have := splitOnChar_ne_nil sep cs
      cases hr : splitOnChar sep cs with
      | nil => exact absurd hr this
      | cons r rs => simp [List.length]
    · rw [if_neg hc]
      have hm : sep ∈ cs := by
        cases List.mem_cons.mp h with
        | inl he => exact absurd he.symm hc
        | inr hm => exact hm
      have h2 := ih hm
      cases hr : splitOnChar sep cs with
      | nil => exact absurd hr (splitOnChar_ne_nil sep cs)
      | cons r rs =>
        rw [hr] at h2
        simpa using h2

theorem string_data_append (s t : String) : (s ++ t).data = s.data ++ t.data := rfl

/-- Anatomy of a successful `parseLine`: the identity fields are the Go zero
value `""`, the state is the verbatim fourth token, and the address and port
fields are the decodings of the halves of the second and third tokens. -/
theorem parseLine_ok_shape (line : String) (p : Process)
    (h : parseLine line = GoOutcome.ok p) :
    p.User = "" ∧ p.Name = "" ∧ p.Pid = "" ∧ p.Exe = "" ∧
    goIndex (lineTokens line) 3 = GoOutcome.ok p.State ∧
    ∃ f1 f2, goIndex (lineTokens line) 1 = GoOutcome.ok f1 ∧
      goIndex (lineTokens line) 2 = GoOutcome.ok f2 ∧
      gbind (goIndex (goSplit ':' f1) 0) convertIP = GoOutcome.ok p.IP ∧
      gbind (goIndex (goSplit ':' f1) 1) hexToDec = GoOutcome.ok p.Port ∧
      gbind (goIndex (goSplit ':' f2) 0) convertIP = GoOutcome.ok p.ForeignIP ∧
      gbind (goIndex (goSplit ':' f2) 1) hexToDec = GoOutcome.ok p.ForeignPort := by
  simp only [parseLine, gbind_ok_iff] at h
  obtain ⟨f1, h1, a0, ha0, ip, hip, a1, ha1, port, hport,
    f2, h2, b0, hb0, fip, hfip, b1, hb1, fport, hfport, st, hst, hEq⟩ := h
  injection hEq with hEq2
  subst hEq2
  refine ⟨rfl, rfl, rfl, rfl, hst, f1, f2, h1, h2, ?_, ?_, ?_, ?_⟩
  · rw [ha0, gbind_ok, hip]
  · rw [ha1, gbind_ok, hport]
  · rw [hb0, gbind_ok, hfip]
  · rw [hb1, gbind_ok, hfport]

/-- Every record of a successful `parseLines` run comes from one of the lines. -/
theorem parseLines_ok_mem (ls : List String) (ps : List Process)
    (h : parseLines ls = GoOutcome.ok ps) (p : Process) (hp : p ∈ ps) :
    ∃ l ∈ ls, parseLine l = GoOutcome.ok p := by
  induction ls generalizing ps with
  | nil =>
    simp only [parseLines] at h
    cases h
    cases hp
  | cons l rest ih =>
    simp only [parseLines, gbind_ok_iff] at h
    obtain ⟨q, hq, qs, hqs, hEq⟩ := h
    cases hEq
    cases List.mem_cons.mp hp with
    | inl he => exact ⟨l, List.mem_cons_self l rest, he ▸ hq⟩
    | inr hm =>
      obtain ⟨l2, hl2, h2⟩ := ih qs hqs hm
      exact ⟨l2, List.mem_cons_of_mem l hl2, h2⟩

/-- A successful `parseLines` run parsed every line successfully. -/
theorem parseLines_ok_all (ls : List String) (ps : List Process)
    (h : parseLines ls = GoOutcome.ok ps) (l : String) (hl : l ∈ ls) :
    ∃ q, parseLine l = GoOutcome.ok q := by
  induction ls generalizing ps with
  | nil => cases hl
  | cons l0 rest ih =>
    simp only [parseLines, gbind_ok_iff] at h
    obtain ⟨q, hq, qs, hqs, hEq⟩ := h
    cases List.mem_cons.mp hl with
    | inl he => exact ⟨q, he ▸ hq⟩
    | inr hm => exact ih qs hqs hm

/-- The `findPid` loop leaves its accumulator unchanged over non-matching links. -/
theorem findPidLoop_no_match (inode : String) (ls : List (String × Option String))
    (acc : String) (h : ∀ e ∈ ls, entryMatch inode e = false) :
    findPidLoop inode ls acc = GoOutcome.ok acc := by
  induction ls with
  | nil => rfl
  | cons e rest ih =>
    obtain ⟨item, tgt⟩ := e
    have he := h ⟨item, tgt⟩ (List.mem_cons_self _ _)
    cases tgt with
    | none =>
      simp only [findPidLoop]
      exact ih (fun e2 h2 => h e2 (List.mem_cons_of_mem _ h2))
    | some path =>
      simp only [entryMatch] at he
      have hne : ¬ (reMatches inode path = true) := by rw [he]; decide
      simp only [findPidLoop, if_neg hne]
      exact ih (fun e2 h2 => h e2 (List.mem_cons_of_mem _ h2))

/-- The `findPid` loop over an appended list runs the two halves in sequence. -/
theorem findPidLoop_append (inode : String) (xs ys : List (String × Option String))
    (acc : String) :
    findPidLoop inode (xs ++ ys) acc =
      gbind (findPidLoop inode xs acc) (fun a => findPidLoop inode ys a) := by
  induction xs generalizing acc with
  | nil => rfl
  | cons e rest ih =>
    obtain ⟨item, tgt⟩ := e
    cases tgt with
    | none => simp only [List.cons_append, findPidLoop]; exact ih acc
    | some path =>
      simp only [List.cons_append, findPidLoop]
      by_cases hm : reMatches inode path
      · rw [if_pos hm, if_pos hm, gbind_assoc]
        cases goIndex (goSplit '/' item) 2 with
        | ok s => simp only [gbind]; exact ih s
        | exit n => rfl
        | panicked => rfl
      · rw [if_neg hm, if_neg hm]; exact ih acc

theorem hexDigitVal_lt (c : Char) (d : Nat) (h : hexDigitVal c = some d) : d < 16 := by
  unfold hexDigitVal at h
  split_ifs at h with h1 h2 h3 <;> (simp only [Option.some.injEq] at h; omega)

theorem hexDigitVal_ne_plus (c : Char) (d : Nat) (h : hexDigitVal c = some d) :
    ¬ (c = '+') := by
  intro he
  subst he
  have h0 : hexDigitVal '+' = none := by decide
  rw [h0] at h
  cases h

theorem hexDigitVal_ne_minus (c : Char) (d : Nat) (h : hexDigitVal c = some d) :
    ¬ (c = '-') := by
  intro he
  subst he
  have h0 : hexDigitVal '-' = none := by decide
  rw [h0] at h
  cases h

/-- Decoding a two-hex-digit string gives sixteen times the first digit plus
the second. -/
theorem hexToDec_pair (a b : Char) (x y : Nat)
    (ha : hexDigitVal a = some x) (hb : hexDigitVal b = some y) :
    hexToDec (String.mk [a, b]) = GoOutcome.ok ((16 * x + y : Nat) : Int) := by
  have hx := hexDigitVal_lt a x ha
  have hy := hexDigitVal_lt b y hb
  have hdata : (String.mk [a, b]).data = [a, b] := rfl
  unfold hexToDec goParseIntHex32
  rw [hdata]
  simp only [goParseIntHex32Aux, if_neg (hexDigitVal_ne_plus a x ha),
    if_neg (hexDigitVal_ne_minus a x ha), parseHexNat, parseHexNatAux, ha, hb,
    Nat.mul_zero, Nat.zero_add, Option.bind]
  rw [if_pos (by omega : 16 * x + y ≤ 2 ^ 31 - 1)]

theorem string_mk_data (l : List Char) : (String.mk l).data = l := rfl

/-- A Go string slice with in-range bounds yields the substring. -/
theorem goSlice_ok (s : String) (a b : Nat) (hab : a ≤ b) (hb : b ≤ s.data.length) :
    goSlice s a b = GoOutcome.ok (String.mk ((s.data.drop a).take (b - a))) := by
  unfold goSlice
  rw [if_pos ⟨hab, hb⟩]

/-- `hexToDec` either returns a value or exits; it never panics. -/
theorem hexToDec_ne_panic (h : String) : hexToDec h ≠ GoOutcome.panicked := by
  unfold hexToDec
  cases goParseIntHex32 h <;> simp

theorem gbind_ne_panic {α β : Type} (x : GoOutcome α) (f : α → GoOutcome β)
    (hx : x ≠ .panicked) (hf : ∀ a, f a ≠ .panicked) : gbind x f ≠ .panicked := by
  cases x with
  | ok a => exact hf a
  | exit n => simp [gbind]
  | panicked => exact absurd rfl hx

/-- A two-character slice taken entirely inside the first 32 elements is
unaffected by truncating the list to 32 elements. -/
theorem take32_slice (l : List Char) (a : Nat) (h : a + 2 ≤ 32) :
    ((l.take 32).drop a).take 2 = (l.drop a).take 2 := by
  rw [List.drop_take, List.take_take]
  congr 1
  omega

/-- On any character list of length at least 32, `convertIP` succeeds and its
output is assembled from the sixteen two-character slices of the first 32
characters, in the source's scrambled order. -/
theorem convertIP_mk_ge32 (l : List Char) (h : 32 ≤ l.length) :
    convertIP (String.mk l) = GoOutcome.ok (
      String.mk ((l.drop 2).take 2) ++ String.mk ((l.drop 0).take 2) ++ ":" ++
      String.mk ((l.drop 4).take 2) ++ String.mk ((l.drop 6).take 2) ++ ":" ++
      String.mk ((l.drop 10).take 2) ++ String.mk ((l.drop 8).take 2) ++ ":" ++
      String.mk ((l.drop 14).take 2) ++ String.mk ((l.drop 12).take 2) ++ ":" ++
      String.mk ((l.drop 18).take 2) ++ String.mk ((l.drop 16).take 2) ++ ":" ++
      String.mk ((l.drop 22).take 2) ++ String.mk ((l.drop 20).take 2) ++ ":" ++
      String.mk ((l.drop 26).take 2) ++ String.mk ((l.drop 24).take 2) ++ ":" ++
      String.mk ((l.drop 30).take 2) ++ String.mk ((l.drop 28).take 2)) := by
  unfold convertIP
  rw [if_pos (by rw [string_mk_data]; omega)]
  rw [goSlice_ok _ 30 32 (by omega) (by rw [string_mk_data]; omega),
    goSlice_ok _ 28 30 (by omega) (by rw [string_mk_data]; omega),
    goSlice_ok _ 26 28 (by omega) (by rw [string_mk_data]; omega),
    goSlice_ok _ 24 26 (by omega) (by rw [string_mk_data]; omega),
    goSlice_ok _ 22 24 (by omega) (by rw [string_mk_data]; omega),
    goSlice_ok _ 20 22 (by omega) (by rw [string_mk_data]; omega),
    goSlice_ok _ 18 20 (by omega) (by rw [string_mk_data]; omega),
    goSlice_ok _ 16 18 (by omega) (by rw [string_mk_data]; omega),
    goSlice_ok _ 14 16 (by omega) (by rw [string_mk_data]; omega),
    goSlice_ok _ 12 14 (by omega) (by rw [string_mk_data]; omega),
    goSlice_ok _ 10 12 (by omega) (by rw [string_mk_data]; omega),
    goSlice_ok _ 8 10 (by omega) (by rw [string_mk_data]; omega),
    goSlice_ok _ 6 8 (by omega) (by rw [string_mk_data]; omega),
    goSlice_ok _ 4 6 (by omega) (by rw [string_mk_data]; omega),
    goSlice_ok _ 2 4 (by omega) (by rw [string_mk_data]; omega),
    goSlice_ok _ 0 2 (by omega) (by rw [string_mk_data]; omega)]
  simp only [gbind_ok]

/-- On a token of length exactly 8, `convertIP` never panics: every slice is
in range, and `hexToDec` at worst exits. -/
theorem convertIP_len8_ne_panic (s : String) (h : s.data.length = 8) :
    convertIP s ≠ GoOutcome.panicked := by
  unfold convertIP
  rw [if_neg (by omega)]
  apply gbind_ne_panic _ _ (by rw [goSlice_ok s 6 8 (by omega) (by omega)]; simp)
  intro a0
  apply gbind_ne_panic _ _ (hexToDec_ne_panic a0)
  intro v0
  apply gbind_ne_panic _ _ (by rw [goSlice_ok s 4 6 (by omega) (by omega)]; simp)
  intro a1
  apply gbind_ne_panic _ _ (hexToDec_ne_panic a1)
  intro v1
  apply gbind_ne_panic _ _ (by rw [goSlice_ok s 2 4 (by omega) (by omega)]; simp)
  intro a2
  apply gbind_ne_panic _ _ (hexToDec_ne_panic a2)
  intro v2
  apply gbind_ne_panic _ _ (by rw [goSlice_ok s 0 2 (by omega) (by omega)]; simp)
  intro a3
  apply gbind_ne_panic _ _ (hexToDec_ne_panic a3)
  intro v3
  simp

/-- If every matching link in a list has a well-formed path (its pid segment
exists), the `findPid` loop over that list returns normally, whatever the
accumulator. -/
theorem findPidLoop_ok_exists (inode : String) :
    ∀ xs : List (String × Option String),
      (∀ e ∈ xs, entryMatch inode e = true →
        ∃ t, goIndex (goSplit '/' e.1) 2 = GoOutcome.ok t) →
      ∀ acc, ∃ acc2, findPidLoop inode xs acc = GoOutcome.ok acc2 := by
  intro xs
  induction xs with
  | nil => exact fun _ acc => ⟨acc, rfl⟩
  | cons e rest ih =>
    intro hxs acc
    obtain ⟨item, tgt⟩ := e
    have hrest : ∀ e ∈ rest, entryMatch inode e = true →
        ∃ t, goIndex (goSplit '/' e.1) 2 = GoOutcome.ok t :=
      fun e he => hxs e (List.mem_cons_of_mem _ he)
    cases tgt with
    | none => simpa only [findPidLoop] using ih hrest acc
    | some path =>
      by_cases hm : reMatches inode path = true
      · obtain ⟨t, ht⟩ := hxs ⟨item, some path⟩ (List.mem_cons_self _ _)
          (by simpa [entryMatch] using hm)
        simp only [findPidLoop, if_pos hm]
        rw [ht, gbind_ok]
        exact ih hrest t
      · simp only [findPidLoop, if_neg hm]
        exact ih hrest acc

/-! ## Claims -/

/-- C1, counterexample: on a table line whose state code is `0A`, `netstat`
returns a record whose `State` is the raw code `"0A"`, which differs from the
`STATE` table entry `"LISTEN"` — the claim that the state field is the table
lookup (and never the raw two-character code) is false on the code. -/
theorem claim_C1_counterexample :
    netstat exFsListen "tcp" = GoOutcome.ok [exProcListen] ∧
    exProcListen.State = "0A" ∧
    stateTableGet "0A" = "LISTEN" ∧
    exProcListen.State ≠ stateTableGet "0A" := by
  refine ⟨by decide, by decide, by decide, by decide⟩

/-- C1, amended: the `State` field of every parsed record is the verbatim
fourth whitespace-delimited token of its line (`lineArray[3]`); the
`STATE` table is never consulted and there is no `"unknown"` fallback. -/
theorem claim_C1 (line : String) (p : Process)
    (h : parseLine line = GoOutcome.ok p) :
    goIndex (lineTokens line) 3 = GoOutcome.ok p.State :=
  (parseLine_ok_shape line p h).2.2.2.2.1

/-- C1, witness: the amended claim evaluated on the concrete LISTEN line. -/
theorem claim_C1_witness :
    goIndex (lineTokens exLine) 3 = GoOutcome.ok exProcListen.State :=
  claim_C1 exLine exProcListen (by decide)

/-- C3, counterexample: in a table containing a two-token line followed by a
well-formed line, the well-formed line alone parses into a record, yet the
whole `netstat` call panics (index out of range) instead of skipping the bad
line and returning the remaining record. -/
theorem claim_C3_counterexample :
    getData exFsShort "tcp" = GoOutcome.ok ["A B", " 0: 0100007F:0035 00000000:0000 0A"] ∧
    parseLine " 0: 0100007F:0035 00000000:0000 0A" = GoOutcome.ok exProcShort ∧
    netstat exFsShort "tcp" = GoOutcome.panicked := by
  refine ⟨by decide, by decide, by decide⟩

/-- C3, amended: a line with fewer than 4 whitespace-delimited tokens after
trimming makes the whole snapshot call abort (a runtime panic or exit):
`netstat` never returns a record collection from such a table, so the
remaining well-formed lines yield nothing. -/
theorem claim_C3 (fs : String → Option String) (t : String) (ls : List String)
    (line : String) (hget : getData fs t = GoOutcome.ok ls) (hmem : line ∈ ls)
    (hlen : (lineTokens line).length < 4) :
    ∀ ps, netstat fs t ≠ GoOutcome.ok ps := by
  intro ps hns
  unfold netstat at hns
  rw [gbind_ok_iff] at hns
  obtain ⟨ls2, hg2, hpl⟩ := hns
  rw [hget] at hg2
  injection hg2 with hg3
  subst hg3
  obtain ⟨q, hq⟩ := parseLines_ok_all ls ps hpl line hmem
  have hst := (parseLine_ok_shape line q hq).2.2.2.2.1
  have hlt := goIndex_ok_lt _ _ _ hst
  omega

/-- C3, witness: the amended claim applied to the concrete malformed table. -/
theorem claim_C3_witness : netstat exFsShort "tcp" ≠ GoOutcome.ok [] :=
  claim_C3 exFsShort "tcp" ["A B", " 0: 0100007F:0035 00000000:0000 0A"] "A B"
    (by decide) (by decide) (by decide) []

/-- C2: evaluating `convertIP` at the 32-hex-character token with bytes
`b0 = 00, ..., b15 = FF` shows the actual hextet arrangement is
`(b1 b0):(b2 b3):(b5 b4):(b7 b6):(b9 b8):(b11 b10):(b13 b12):(b15 b14)`,
not the word-wise little-endian reversal
`(b3 b2):(b1 b0):(b7 b6):(b5 b4):(b11 b10):(b9 b8):(b15 b14):(b13 b12)`
(`"3322:1100:7766:5544:BBAA:9988:FFEE:DDCC"`) that the claim states:
the source's format-argument order is scrambled. -/
theorem claim_C2_bug :
    convertIP "00112233445566778899AABBCCDDEEFF" =
      GoOutcome.ok "1100:2233:5544:7766:9988:BBAA:DDCC:FFEE" ∧
    convertIP "00112233445566778899AABBCCDDEEFF" ≠
      GoOutcome.ok "3322:1100:7766:5544:BBAA:9988:FFEE:DDCC" := by
  refine ⟨by decide, by decide⟩

/-- C4, counterexample: requesting the unsupported selector `"sctp"` makes
`getData` terminate the process (`os.Exit(1)`, here `GoOutcome.exit 1`); no
`UnsupportedProtocol` error value is returned to the caller, contradicting
the claim that the library never terminates the host process. -/
theorem claim_C4_counterexample :
    getData (fun _ => none) "sctp" = GoOutcome.exit 1 := by decide

/-- C4, amended: an unsupported protocol selector, and likewise a failed read
of the kernel resource, terminate the process with exit status 1 before any
record is produced (no partial work), instead of returning an error value. -/
theorem claim_C4 (fs : String → Option String) (t : String) :
    ((t ≠ "tcp" ∧ t ≠ "udp" ∧ t ≠ "tcp6" ∧ t ≠ "udp6") →
      getData fs t = GoOutcome.exit 1) ∧
    (∀ path, protoPath t = some path → fs path = none →
      getData fs t = GoOutcome.exit 1) := by
  constructor
  · intro ⟨h1, h2, h3, h4⟩
    unfold getData protoPath
    rw [if_neg h1, if_neg h2, if_neg h3, if_neg h4]
  · intro path hp hf
    unfold getData
    simp only [hp, hf]

/-- C4, witness: the amended claim at the selector `"sctp"` and at a failing
read of the tcp table. -/
theorem claim_C4_witness :
    getData exFsNone "sctp" = GoOutcome.exit 1 ∧
    getData exFsNone "tcp" = GoOutcome.exit 1 :=
  ⟨(claim_C4 exFsNone "sctp").1 (by decide),
   (claim_C4 exFsNone "tcp").2 PROC_TCP rfl rfl⟩

/-- C5, counterexample: a 4-character token makes `convertIP` panic
(slice bounds out of range) rather than return a `MalformedInput` error
value, and a 33-character token is decoded to a string (from its first
32 characters) rather than rejected. -/
theorem claim_C5_counterexample :
    convertIP "0000" = GoOutcome.panicked ∧
    convertIP "000000000000000000000000000000000" =
      GoOutcome.ok "0000:0000:0000:0000:0000:0000:0000:0000" := by
  refine ⟨by decide, by decide⟩

/-- C5, amended: a token whose length is less than 8 or strictly between 8
and 32 makes `convertIP` panic with a slice-bounds error (it crashes,
returning no error value); every token of length 32 or more is decoded from
its first 32 characters (the decode succeeds and ignores everything past
character 32); and a token of length exactly 8 never panics. -/
theorem claim_C5 :
    (∀ s : String, s.data.length ≠ 8 → s.data.length < 32 →
      convertIP s = GoOutcome.panicked) ∧
    (∀ s : String, 32 ≤ s.data.length →
      convertIP s = convertIP (String.mk (s.data.take 32)) ∧
      ∃ out, convertIP s = GoOutcome.ok out) ∧
    (∀ s : String, s.data.length = 8 → convertIP s ≠ GoOutcome.panicked) := by
  refine ⟨?_, ?_, convertIP_len8_ne_panic⟩
  · intro s h8 h32
    unfold convertIP
    by_cases hl : s.data.length > 8
    · rw [if_pos hl]
      have hs : goSlice s 30 32 = GoOutcome.panicked := by
        unfold goSlice
        rw [if_neg (by omega)]
      rw [hs]
      rfl
    · rw [if_neg hl]
      have hs : goSlice s 6 8 = GoOutcome.panicked := by
        unfold goSlice
        rw [if_neg (by omega)]
      rw [hs]
      rfl
  · intro s h
    have h1 : convertIP s = GoOutcome.ok (
        String.mk ((s.data.drop 2).take 2) ++ String.mk ((s.data.drop 0).take 2) ++ ":" ++
        String.mk ((s.data.drop 4).take 2) ++ String.mk ((s.data.drop 6).take 2) ++ ":" ++
        String.mk ((s.data.drop 10).take 2) ++ String.mk ((s.data.drop 8).take 2) ++ ":" ++
        String.mk ((s.data.drop 14).take 2) ++ String.mk ((s.data.drop 12).take 2) ++ ":" ++
        String.mk ((s.data.drop 18).take 2) ++ String.mk ((s.data.drop 16).take 2) ++ ":" ++
        String.mk ((s.data.drop 22).take 2) ++ String.mk ((s.data.drop 20).take 2) ++ ":" ++
        String.mk ((s.data.drop 26).take 2) ++ String.mk ((s.data.drop 24).take 2) ++ ":" ++
        String.mk ((s.data.drop 30).take 2) ++ String.mk ((s.data.drop 28).take 2)) := by
      have hm := convertIP_mk_ge32 s.data h
      rwa [show String.mk s.data = s from rfl] at hm
    have hl2 : 32 ≤ (s.data.take 32).length := by
      rw [List.length_take]
      omega
    have h2 := convertIP_mk_ge32 (s.data.take 32) hl2
    refine ⟨?_, ⟨_, h1⟩⟩
    rw [h1, h2]
    rw [take32_slice s.data 2 (by omega), take32_slice s.data 0 (by omega),
      take32_slice s.data 4 (by omega), take32_slice s.data 6 (by omega),
      take32_slice s.data 10 (by omega), take32_slice s.data 8 (by omega),
      take32_slice s.data 14 (by omega), take32_slice s.data 12 (by omega),
      take32_slice s.data 18 (by omega), take32_slice s.data 16 (by omega),
      take32_slice s.data 22 (by omega), take32_slice s.data 20 (by omega),
      take32_slice s.data 26 (by omega), take32_slice s.data 24 (by omega),
      take32_slice s.data 30 (by omega), take32_slice s.data 28 (by omega)]

/-- C5, witness: the amended claim at the length-6 token `"123456"` (panic),
at the length-33 token of 32 zeros and a trailing `F` (decoded from the first
32 characters, the `F` ignored), and at the length-8 token `"0100007F"`
(no panic). -/
theorem claim_C5_witness :
    convertIP "123456" = GoOutcome.panicked ∧
    convertIP "00000000000000000000000000000000F" =
      convertIP (String.mk (("00000000000000000000000000000000F").data.take 32)) ∧
    (∃ out, convertIP "00000000000000000000000000000000F" = GoOutcome.ok out) ∧
    convertIP "0100007F" ≠ GoOutcome.panicked :=
  ⟨claim_C5.1 "123456" (by decide) (by decide),
   (claim_C5.2.1 "00000000000000000000000000000000F" (by decide)).1,
   (claim_C5.2.1 "00000000000000000000000000000000F" (by decide)).2,
   claim_C5.2.2 "0100007F" (by decide)⟩

/-- C6, counterexample: with two descriptor links of different processes both
matching inode 777, `findPid` returns `"22"`, the pid from the second
(last) matching link, not `"11"` from the first — the scan does not stop at
the first match. -/
theorem claim_C6_counterexample :
    findPid "777" exLinks = GoOutcome.ok "22" ∧
    findPid "777" exLinks ≠ GoOutcome.ok "11" := by
  refine ⟨by decide, by decide⟩

/-- C6, amended: in every scan in which at least one descriptor link matches
the inode (so in particular whenever two or more do), `findPid` keeps
scanning to the end and records the pid (the third `/`-separated segment of
the link path) of the LAST matching link in enumeration order: the list is
split as `xs ++ (item, some path) :: ys` where `(item, some path)` is the
final matching link (everything in `ys` is non-matching), `xs` may contain
arbitrarily many earlier matching links, each with a well-formed
`/proc/<pid>/fd/<n>` path as the glob guarantees. -/
theorem claim_C6 (inode : String) (xs ys : List (String × Option String))
    (item path s2 : String)
    (hxs : ∀ e ∈ xs, entryMatch inode e = true →
      ∃ t, goIndex (goSplit '/' e.1) 2 = GoOutcome.ok t)
    (hm : reMatches inode path = true)
    (hs : goIndex (goSplit '/' item) 2 = GoOutcome.ok s2)
    (hys : ∀ e ∈ ys, entryMatch inode e = false) :
    findPid inode (xs ++ (item, some path) :: ys) = GoOutcome.ok s2 := by
  unfold findPid
  rw [findPidLoop_append]
  obtain ⟨acc2, hacc⟩ := findPidLoop_ok_exists inode xs hxs "-"
  rw [hacc, gbind_ok]
  simp only [findPidLoop, if_pos hm]
  rw [hs, gbind_ok]
  exact findPidLoop_no_match inode ys s2 hys

/-- C6, witness: the amended claim on a scan with three matching links of
three different processes (11, 33, then 22) and a trailing unreadable link;
the result is the pid of the third, last matching link. -/
theorem claim_C6_witness :
    findPid "777"
      ([("/proc/11/fd/3", some "socket:[777]"), ("/proc/33/fd/5", some "socket:[777]")] ++
        ("/proc/22/fd/4", some "socket:[777]") :: [("/proc/99/fd/9", (none : Option String))]) =
      GoOutcome.ok "22" :=
  claim_C6 "777"
    [("/proc/11/fd/3", some "socket:[777]"), ("/proc/33/fd/5", some "socket:[777]")]
    [("/proc/99/fd/9", none)] "/proc/22/fd/4" "socket:[777]" "22"
    (by
      intro e he hme
      rcases List.mem_cons.mp he with rfl | he2
      · exact ⟨"11", by decide⟩
      · rcases List.mem_cons.mp he2 with rfl | he3
        · exact ⟨"33", by decide⟩
        · cases he3)
    (by decide) (by decide)
    (by
      intro e he
      rcases List.mem_cons.mp he with rfl | he2
      · rfl
      · cases he2)

/-- C7: an 8-hex-character token with digit values `d0..d7` (bytes
`b0 = 16*d0+d1`, `b1 = 16*d2+d3`, `b2 = 16*d4+d5`, `b3 = 16*d6+d7`) decodes
to the byte-reversed dotted quad `b3.b2.b1.b0` rendered in decimal, and hex
port tokens parse as hexadecimal integers: `hexToDec "0050" = 80`,
`hexToDec "1F90" = 8080`, and `convertIP "0100007F" = "127.0.0.1"`. -/
theorem claim_C7 :
    (∀ c0 c1 c2 c3 c4 c5 c6 c7 : Char, ∀ d0 d1 d2 d3 d4 d5 d6 d7 : Nat,
      hexDigitVal c0 = some d0 → hexDigitVal c1 = some d1 →
      hexDigitVal c2 = some d2 → hexDigitVal c3 = some d3 →
      hexDigitVal c4 = some d4 → hexDigitVal c5 = some d5 →
      hexDigitVal c6 = some d6 → hexDigitVal c7 = some d7 →
      convertIP (String.mk [c0, c1, c2, c3, c4, c5, c6, c7]) =
        GoOutcome.ok (toString ((16 * d6 + d7 : Nat) : Int) ++ "." ++
          toString ((16 * d4 + d5 : Nat) : Int) ++ "." ++
          toString ((16 * d2 + d3 : Nat) : Int) ++ "." ++
          toString ((16 * d0 + d1 : Nat) : Int))) ∧
    hexToDec "0050" = GoOutcome.ok 80 ∧
    hexToDec "1F90" = GoOutcome.ok 8080 ∧
    convertIP "0100007F" = GoOutcome.ok "127.0.0.1" := by
  refine ⟨?_, by decide, by decide, by decide⟩
  intro c0 c1 c2 c3 c4 c5 c6 c7 d0 d1 d2 d3 d4 d5 d6 d7 h0 h1 h2 h3 h4 h5 h6 h7
  have hred : convertIP (String.mk [c0, c1, c2, c3, c4, c5, c6, c7]) =
      gbind (hexToDec (String.mk [c6, c7])) fun v0 =>
      gbind (hexToDec (String.mk [c4, c5])) fun v1 =>
      gbind (hexToDec (String.mk [c2, c3])) fun v2 =>
      gbind (hexToDec (String.mk [c0, c1])) fun v3 =>
      GoOutcome.ok (toString v0 ++ "." ++ toString v1 ++ "." ++ toString v2 ++ "." ++
        toString v3) := rfl
  rw [hred, hexToDec_pair c6 c7 d6 d7 h6 h7, gbind_ok,
    hexToDec_pair c4 c5 d4 d5 h4 h5, gbind_ok,
    hexToDec_pair c2 c3 d2 d3 h2 h3, gbind_ok,
    hexToDec_pair c0 c1 d0 d1 h0 h1, gbind_ok]

/-- C7, witness: the universal part evaluated at the token `0100007F`
(bytes 01, 00, 00, 7F), giving `127.0.0.1`. -/
theorem claim_C7_witness :
    convertIP (String.mk ['0', '1', '0', '0', '0', '0', '7', 'F']) =
      GoOutcome.ok (toString ((16 * 7 + 15 : Nat) : Int) ++ "." ++
        toString ((16 * 0 + 0 : Nat) : Int) ++ "." ++
        toString ((16 * 0 + 0 : Nat) : Int) ++ "." ++
        toString ((16 * 0 + 1 : Nat) : Int)) :=
  claim_C7.1 '0' '1' '0' '0' '0' '0' '7' 'F' 0 1 0 0 0 0 7 15
    (by decide) (by decide) (by decide) (by decide)
    (by decide) (by decide) (by decide) (by decide)

/-- C8: a table resource whose content is exactly one header line followed by
its line terminator yields zero records and no failure. -/
theorem claim_C8 (fs : String → Option String) (t : String) (path header : String)
    (hp : protoPath t = some path) (hnl : '\n' ∉ header.data)
    (hf : fs path = some (header ++ "\n")) :
    netstat fs t = GoOutcome.ok [] := by
  have hsplit : goSplit '\n' (header ++ "\n") = [header, ""] := by
    unfold goSplit
    rw [string_data_append, show ("\n" : String).data = ['\n'] from rfl,
      splitOnChar_append_sep '\n' header.data hnl]
    rfl
  unfold netstat getData
  simp only [hp, hf, hsplit]
  rfl

/-- C8, witness: the claim at a concrete header-only tcp table. -/
theorem claim_C8_witness : netstat exFsHeaderOnly "tcp" = GoOutcome.ok [] :=
  claim_C8 exFsHeaderOnly "tcp" PROC_TCP "hdr" rfl (by decide) rfl

/-- C9: every record of a successful `Tcp`/`Udp`/`Tcp6`/`Udp6` call has its
`State`, `IP`, `Port`, `ForeignIP` and `ForeignPort` populated from a line of
the read table, while `User`, `Name`, `Pid` and `Exe` are always the empty
string: the inode-to-process correlation is disconnected from record
construction. -/
theorem claim_C9 (fs : String → Option String) (ps : List Process)
    (hcall : Tcp fs = GoOutcome.ok ps ∨ Udp fs = GoOutcome.ok ps ∨
      Tcp6 fs = GoOutcome.ok ps ∨ Udp6 fs = GoOutcome.ok ps) :
    ∀ p ∈ ps, p.User = "" ∧ p.Name = "" ∧ p.Pid = "" ∧ p.Exe = "" ∧
      ∃ t ls line, getData fs t = GoOutcome.ok ls ∧ line ∈ ls ∧
        parseLine line = GoOutcome.ok p ∧
        goIndex (lineTokens line) 3 = GoOutcome.ok p.State ∧
        ∃ f1 f2, goIndex (lineTokens line) 1 = GoOutcome.ok f1 ∧
          goIndex (lineTokens line) 2 = GoOutcome.ok f2 ∧
          gbind (goIndex (goSplit ':' f1) 0) convertIP = GoOutcome.ok p.IP ∧
          gbind (goIndex (goSplit ':' f1) 1) hexToDec = GoOutcome.ok p.Port ∧
          gbind (goIndex (goSplit ':' f2) 0) convertIP = GoOutcome.ok p.ForeignIP ∧
          gbind (goIndex (goSplit ':' f2) 1) hexToDec = GoOutcome.ok p.ForeignPort := by
  have main : ∀ t, netstat fs t = GoOutcome.ok ps → ∀ p ∈ ps,
      p.User = "" ∧ p.Name = "" ∧ p.Pid = "" ∧ p.Exe = "" ∧
      ∃ ls line, getData fs t = GoOutcome.ok ls ∧ line ∈ ls ∧
        parseLine line = GoOutcome.ok p ∧
        goIndex (lineTokens line) 3 = GoOutcome.ok p.State ∧
        ∃ f1 f2, goIndex (lineTokens line) 1 = GoOutcome.ok f1 ∧
          goIndex (lineTokens line) 2 = GoOutcome.ok f2 ∧
          gbind (goIndex (goSplit ':' f1) 0) convertIP = GoOutcome.ok p.IP ∧
          gbind (goIndex (goSplit ':' f1) 1) hexToDec = GoOutcome.ok p.Port ∧
          gbind (goIndex (goSplit ':' f2) 0) convertIP = GoOutcome.ok p.ForeignIP ∧
          gbind (goIndex (goSplit ':' f2) 1) hexToDec = GoOutcome.ok p.ForeignPort := by
    intro t hns p hp
    unfold netstat at hns
    rw [gbind_ok_iff] at hns
    obtain ⟨ls, hget, hpl⟩ := hns
    obtain ⟨line, hline, hok⟩ := parseLines_ok_mem ls ps hpl p hp
    obtain ⟨hU, hN, hP, hE, hS, f1, f2, rest⟩ := parseLine_ok_shape line p hok
    exact ⟨hU, hN, hP, hE, ls, line, hget, hline, hok, hS, f1, f2, rest⟩
  intro p hp
  rcases hcall with h | h | h | h
  · obtain ⟨hU, hN, hP, hE, ls, line, rest⟩ := main "tcp" h p hp
    exact ⟨hU, hN, hP, hE, "tcp", ls, line, rest⟩
  · obtain ⟨hU, hN, hP, hE, ls, line, rest⟩ := main "udp" h p hp
    exact ⟨hU, hN, hP, hE, "udp", ls, line, rest⟩
  · obtain ⟨hU, hN, hP, hE, ls, line, rest⟩ := main "tcp6" h p hp
    exact ⟨hU, hN, hP, hE, "tcp6", ls, line, rest⟩
  · obtain ⟨hU, hN, hP, hE, ls, line, rest⟩ := main "udp6" h p hp
    exact ⟨hU, hN, hP, hE, "udp6", ls, line, rest⟩

/-- C9, witness: the claim evaluated on the record `Tcp` returns for the
concrete LISTEN table. -/
theorem claim_C9_witness :
    exProcListen.User = "" ∧ exProcListen.Name = "" ∧ exProcListen.Pid = "" ∧
    exProcListen.Exe = "" ∧
    ∃ t ls line, getData exFsListen t = GoOutcome.ok ls ∧ line ∈ ls ∧
      parseLine line = GoOutcome.ok exProcListen ∧
      goIndex (lineTokens line) 3 = GoOutcome.ok exProcListen.State ∧
      ∃ f1 f2, goIndex (lineTokens line) 1 = GoOutcome.ok f1 ∧
        goIndex (lineTokens line) 2 = GoOutcome.ok f2 ∧
        gbind (goIndex (goSplit ':' f1) 0) convertIP = GoOutcome.ok exProcListen.IP ∧
        gbind (goIndex (goSplit ':' f1) 1) hexToDec = GoOutcome.ok exProcListen.Port ∧
        gbind (goIndex (goSplit ':' f2) 0) convertIP =
          GoOutcome.ok exProcListen.ForeignIP ∧
        gbind (goIndex (goSplit ':' f2) 1) hexToDec =
          GoOutcome.ok exProcListen.ForeignPort :=
  claim_C9 exFsListen [exProcListen] (Or.inl (by decide)) exProcListen
    (List.mem_singleton.mpr rfl)

/-- C10: `getData` is total exactly when the raw content contains a newline:
content without any newline (e.g. the empty string, or a header without its
terminator) makes the header/trailer-stripping slice panic, while content
with a newline yields the stripped line list. -/
theorem claim_C10 (fs : String → Option String) (t : String) (path content : String)
    (hp : protoPath t = some path) (hf : fs path = some content) :
    ('\n' ∉ content.data → getData fs t = GoOutcome.panicked) ∧
    ('\n' ∈ content.data → getData fs t =
      GoOutcome.ok (((goSplit '\n' content).drop 1).take
        ((goSplit '\n' content).length - 2))) := by
  constructor
  · intro hnl
    have hsplit : goSplit '\n' content = [content] := by
      unfold goSplit
      rw [splitOnChar_of_not_mem '\n' content.data hnl]
      rfl
    unfold getData
    simp only [hp, hf, hsplit]
    rfl
  · intro hnl
    have hlen : 2 ≤ (goSplit '\n' content).length := by
      unfold goSplit
      rw [List.length_map]
      exact splitOnChar_two_le_of_mem '\n' content.data hnl
    unfold getData
    simp only [hp, hf]
    rw [if_neg (by omega)]

/-- C10, witness: the claim at the empty tcp table (panic) and at a
two-line table lacking the final terminator (success). -/
theorem claim_C10_witness :
    getData exFsEmptyFile "tcp" = GoOutcome.panicked ∧
    getData exFsTwoLines "tcp" =
      GoOutcome.ok (((goSplit '\n' "hdr\nline").drop 1).take
        ((goSplit '\n' "hdr\nline").length - 2)) :=
  ⟨(claim_C10 exFsEmptyFile "tcp" PROC_TCP "" rfl rfl).1 (by decide),
   (claim_C10 exFsTwoLines "tcp" PROC_TCP "hdr\nline" rfl rfl).2 (by decide)⟩

end GOnetstat

